import Mathlib

/-!
Shallow embedding of `src/turn_head_to_source.py` (acoustic_track).

The program is a ROS node that turns a robot head toward a sound source.
The pipeline is: temporal median filter over the raw angles, a fixed-size
down-sample ("vote") buffer of filtered values, a mode (majority) selection,
a polar-to-Cartesian conversion at radius 3.0, and a blocking actuator call.

Modelling choices:
  * Python floats are modelled by rationals `ℚ` (exact, executable); the
    trigonometric target conversion (`PolToCart`) is modelled over `ℝ`.
  * NumPy arrays are Lean lists; `np.roll(a, 1)` followed by `a[0] = v` on a
    nonempty array is `v :: a.dropLast`.
  * `np.median` sorts and takes the middle element, or the mean of the two
    middle elements for even lengths.
  * `np.unique(buf, return_inverse=True)` plus `bincount`/`argmax` in
    `GetMode` returns, among the values of maximal multiplicity, the one that
    comes first in the sorted order of distinct values, i.e. the smallest.
  * `astype(int)` truncates toward zero (`truncQ`).
  * The subscriber delivers callbacks one at a time and the body of
    `AudioCallback` runs under `self.lock`, so the whole callback (including
    the blocking `SetPointHead` call) is one atomic step; a run of the node
    is a fold of that step over the list of delivered messages.
-/

-- temporal median filter length (source constant FILTER_LENGTH)
def FILTER_LENGTH : ℕ := 20
-- downsample buffer length (source constant BUFFER_LENGTH)
def BUFFER_LENGTH : ℕ := 30

/-- Median of a list of rationals, as computed by `np.median`: sort, then take
the middle element (odd length) or the mean of the two middle elements (even
length). Returns 0 on the empty list (np.median would return NaN there; the
program never calls it on an empty array). -/
def median (l : List ℚ) : ℚ :=
  let s := l.insertionSort (· ≤ ·)
  if l.length % 2 = 1 then s.getD (l.length / 2) 0
  else (s.getD (l.length / 2 - 1) 0 + s.getD (l.length / 2) 0) / 2

/-- Source `TemporalMedian(new_value, history, length)`: a temporal median
filter. History is kept most-recent-first. Empty history: insert and return
the median; below capacity: insert at the front; at capacity: `np.roll` by 1
and overwrite slot 0, which drops the last element and inserts at the front.
Returns the pair (median of the new history, new history). -/
def TemporalMedian (new_value : ℚ) (history : List ℚ) (length : ℕ) :
    ℚ × List ℚ :=
  if history.length = 0 then
    let history' := [new_value]
    (median history', history')
  else if history.length < length then
    let history' := new_value :: history
    (median history', history')
  else
    let history' := new_value :: history.dropLast
    (median history', history')

/-- Source `DownSample(new_value, buf)`: `np.roll(buf, 1)` then
`buf[0] = new_value`, i.e. evict the last slot and insert at the front. -/
def DownSample (new_value : ℚ) (buf : List ℚ) : List ℚ :=
  new_value :: buf.dropLast

/-- First-maximum fold used to model `np.argmax` over the bincounts: walk the
candidate values in order, keeping the current best and replacing it only on a
strictly larger count. -/
def argmaxCount (count : ℤ → ℕ) (best : ℤ) : List ℤ → ℤ
  | [] => best
  | x :: xs => argmaxCount count (if count x > count best then x else best) xs

/-- Source `GetMode(buf)`: `np.unique` yields the distinct values in sorted
order and `bincount` their multiplicities; `argmax` picks the first index of
maximal multiplicity, hence the smallest value among those tied for the
highest multiplicity. -/
def GetMode (buf : List ℤ) : ℤ :=
  let u := buf.dedup.insertionSort (· ≤ ·)
  argmaxCount (fun x => buf.count x) (u.headD 0) u.tail

/-- Truncation toward zero, the semantics of NumPy `astype(int)` on floats. -/
def truncQ (q : ℚ) : ℤ :=
  if 0 ≤ q then ⌊q⌋ else ⌈q⌉

/-- Source `PolToCart(rho, phi)`: polar to Cartesian conversion, returns the
pair (x, y) with `x = rho * cos phi` and `y = rho * sin phi`. -/
noncomputable def PolToCart (rho phi : ℝ) : ℝ × ℝ :=
  (rho * Real.cos phi, rho * Real.sin phi)

/-- The target point built at commit time (source lines 117-121): the commit
calls `PolToCart(3.0, (direction / 180.0) * pi)` on the voted integer
direction and sets `point.point = (x, y, 0.0)`. -/
noncomputable def commitTarget (direction : ℤ) : ℝ × ℝ × ℝ :=
  let p := PolToCart 3 (((direction : ℝ) / 180) * Real.pi)
  (p.1, p.2, 0)

/-- An incoming `SoundSourceAngle` message: the fields the callback reads. -/
structure Msg where
  angle : ℚ
  is_valid : Bool
deriving DecidableEq, Repr

/-- The mutable state of the `Follower` node that the callback touches:
`self.angle` (median filter history), `self.buf` (vote buffer),
`self.counter`, `self.ignore_inputs` and `self.initializtion` (sic, the
source misspells it). -/
structure FollowerState where
  angle : List ℚ
  buf : List ℚ
  counter : ℕ
  ignore_inputs : Bool
  initializtion : Bool
deriving DecidableEq, Repr

/-- The state right after `Follower.__init__` (source lines 76-81):
`self.angle = np.zeros(1)` is a one-element array holding 0.0, the vote
buffer holds `BUFFER_LENGTH` zeros, the counter is 0 and both flags are set
as in the source. -/
def initState : FollowerState :=
  { angle := [0]
    buf := List.replicate BUFFER_LENGTH 0
    counter := 0
    ignore_inputs := false
    initializtion := true }

/-- The state `SetPointHead` leaves behind (source lines 171-173):
`self.angle = np.array([])` is empty, the vote buffer is reset to
`BUFFER_LENGTH` zeros, the counter to 0; `ignore_inputs` was cleared at
line 168 and `initializtion` stays false. -/
def resetState : FollowerState :=
  { angle := []
    buf := List.replicate BUFFER_LENGTH 0
    counter := 0
    ignore_inputs := false
    initializtion := false }

/-- Source line 159: `self.ignore_inputs = True`, the first statement of the
commit sequence inside `SetPointHead`. -/
def setIgnore (s : FollowerState) : FollowerState :=
  { s with ignore_inputs := true }

/-- Source line 168: `self.ignore_inputs = False`, after the blocking
`wait_for_result` call and the 2 second sleep. -/
def clearIgnore (s : FollowerState) : FollowerState :=
  { s with ignore_inputs := false }

/-- Source `Follower.SetPointHead(point)` as a state transformer: it sets
`ignore_inputs`, issues the blocking actuator call whose result is logged but
never branched on (modelled by the unused `result` argument), clears
`ignore_inputs`, and re-initializes the history array, the buffer array and
the counter. -/
def SetPointHead (result : Bool) (s : FollowerState) : FollowerState :=
  let s1 := setIgnore s
  -- result := client.wait_for_result(...): `result` is only logged
  let _ := result
  let s2 := clearIgnore s1
  { s2 with
    angle := []
    buf := List.replicate BUFFER_LENGTH 0
    counter := 0 }

/-- Source `Follower.AudioCallback(msg)` as one atomic step (the body runs
under `self.lock` from line 88 to line 148). Returns the new state and, when
the commit branch fires, `some d` where `d` is the voted direction handed to
`PolToCart`/`SetPointHead` (the actuator invocation). `result` is the
actuator outcome observed during the commit, if any. -/
def AudioCallback (result : Bool) (msg : Msg) (s : FollowerState) :
    FollowerState × Option ℤ :=
  if s.initializtion then
    ({ s with initializtion := false }, none)
  else if msg.is_valid && !s.ignore_inputs then
    let p := TemporalMedian msg.angle s.angle FILTER_LENGTH
    let direction := p.1
    let angle' := p.2
    let buf' := DownSample direction s.buf
    if s.counter = BUFFER_LENGTH then
      -- self.buf = self.buf.astype(int); direction = GetMode(self.buf)
      let ibuf := buf'.map truncQ
      let d := GetMode ibuf
      let sCommit : FollowerState :=
        { s with angle := angle', buf := ibuf.map (fun z => (z : ℚ)) }
      (SetPointHead result sCommit, some d)
    else
      ({ s with angle := angle', buf := buf', counter := s.counter + 1 }, none)
  else
    (s, none)

/-- A run of the node: process the delivered messages in arrival order
(rospy delivers the callbacks of one subscriber sequentially, and the lock
serializes the body in any case), collecting the voted direction of every
commit that fired. -/
def runCallbacks (result : Bool) (s : FollowerState) : List Msg → FollowerState × List ℤ
  | [] => (s, [])
  | m :: ms =>
    let r := AudioCallback result m s
    let rest := runCallbacks result r.1 ms
    (rest.1, r.2.toList ++ rest.2)

/-- The median filter history reached from history `h` by pushing the values
of `vs` in order through `TemporalMedian` with the programs filter length. -/
def filterStateFrom (h : List ℚ) : List ℚ → List ℚ
  | [] => h
  | v :: vs => filterStateFrom (TemporalMedian v h FILTER_LENGTH).2 vs

/-- The filtered value returned by each of the pushes of `vs`, in order,
starting from history `h`. -/
def filterOutputsFrom (h : List ℚ) : List ℚ → List ℚ
  | [] => []
  | v :: vs =>
    (TemporalMedian v h FILTER_LENGTH).1 ::
      filterOutputsFrom (TemporalMedian v h FILTER_LENGTH).2 vs

/-- Median filter history after pushing `vs` starting from an empty history. -/
def filterState (vs : List ℚ) : List ℚ :=
  filterStateFrom [] vs

/-- The sequence of filtered values produced by pushing `vs` starting from an
empty history. -/
def filterOutputs (vs : List ℚ) : List ℚ :=
  filterOutputsFrom [] vs

/-! ### Branch lemmas for the callback -/

/-- The very first callback only clears the initialization flag. -/
lemma AudioCallback_initializing (result : Bool) (msg : Msg) (s : FollowerState)
    (hinit : s.initializtion = true) :
    AudioCallback result msg s = ({ s with initializtion := false }, none) := by
  simp [AudioCallback, hinit]

/-- An invalid sample after initialization is dropped with no state change. -/
lemma AudioCallback_invalid (result : Bool) (msg : Msg) (s : FollowerState)
    (hinit : s.initializtion = false) (hv : msg.is_valid = false) :
    AudioCallback result msg s = (s, none) := by
  simp [AudioCallback, hinit, hv]

/-- A sample arriving while `ignore_inputs` is set is dropped unchanged. -/
lemma AudioCallback_ignoring (result : Bool) (msg : Msg) (s : FollowerState)
    (hinit : s.initializtion = false) (hign : s.ignore_inputs = true) :
    AudioCallback result msg s = (s, none) := by
  simp [AudioCallback, hinit, hign]

/-- The listening branch: a valid sample with the counter below the buffer
length updates the filter history, pushes the filtered value into the vote
buffer and increments the counter; no commit fires. -/
lemma AudioCallback_listen (result : Bool) (msg : Msg) (s : FollowerState)
    (hinit : s.initializtion = false) (hign : s.ignore_inputs = false)
    (hv : msg.is_valid = true) (hc : s.counter ≠ BUFFER_LENGTH) :
    AudioCallback result msg s =
      ({ s with
          angle := (TemporalMedian msg.angle s.angle FILTER_LENGTH).2
          buf := DownSample (TemporalMedian msg.angle s.angle FILTER_LENGTH).1 s.buf
          counter := s.counter + 1 }, none) := by
  simp [AudioCallback, hinit, hign, hv, hc]

/-- The commit branch: when the counter has reached `BUFFER_LENGTH` the
callback pushes the sample through the filter, truncates the vote buffer to
integers, votes, and hands the mode to `SetPointHead`, which leaves the
controller in the reset state. -/
lemma AudioCallback_commit (result : Bool) (msg : Msg) (s : FollowerState)
    (hinit : s.initializtion = false) (hign : s.ignore_inputs = false)
    (hv : msg.is_valid = true) (hc : s.counter = BUFFER_LENGTH) :
    AudioCallback result msg s =
      (resetState,
        some (GetMode
          ((DownSample (TemporalMedian msg.angle s.angle FILTER_LENGTH).1
              s.buf).map truncQ))) := by
  simp [AudioCallback, SetPointHead, setIgnore, clearIgnore, resetState,
    hinit, hign, hv, hc]

/-- Inversion: if a callback emitted a commit, the state satisfied the commit
conditions, the voted direction is the mode of the truncated buffer, and the
post-state is the reset state. -/
lemma AudioCallback_some (result : Bool) (msg : Msg) (s : FollowerState) (d : ℤ)
    (h : (AudioCallback result msg s).2 = some d) :
    (AudioCallback result msg s).1 = resetState ∧
    s.initializtion = false ∧ s.ignore_inputs = false ∧
    msg.is_valid = true ∧ s.counter = BUFFER_LENGTH ∧
    d = GetMode
      ((DownSample (TemporalMedian msg.angle s.angle FILTER_LENGTH).1
          s.buf).map truncQ) := by
  by_cases h1 : s.initializtion = true
  · rw [AudioCallback_initializing result msg s h1] at h
    exact absurd h (by simp)
  · have h1' : s.initializtion = false := by simpa using h1
    by_cases h2 : msg.is_valid = true
    · by_cases h3 : s.ignore_inputs = true
      · rw [AudioCallback_ignoring result msg s h1' h3] at h
        exact absurd h (by simp)
      · have h3' : s.ignore_inputs = false := by simpa using h3
        by_cases h4 : s.counter = BUFFER_LENGTH
        · rw [AudioCallback_commit result msg s h1' h3' h2 h4] at h ⊢
          simp only [Option.some.injEq] at h
          exact ⟨rfl, h1', h3', h2, h4, h.symm⟩
        · rw [AudioCallback_listen result msg s h1' h3' h2 h4] at h
          exact absurd h (by simp)
    · have h2' : msg.is_valid = false := by simpa using h2
      rw [AudioCallback_invalid result msg s h1' h2'] at h
      exact absurd h (by simp)

/-! ### Run lemmas -/

/-- While the counter stays below the buffer length, a run of valid samples
commits nothing, adds one to the counter per sample, and keeps the
initialization and ignore flags clear. -/
lemma runCallbacks_listening (result : Bool) (vs : List Msg) :
    ∀ s : FollowerState, s.initializtion = false → s.ignore_inputs = false →
      s.counter + vs.length ≤ BUFFER_LENGTH →
      (∀ m ∈ vs, m.is_valid = true) →
      (runCallbacks result s vs).2 = [] ∧
      (runCallbacks result s vs).1.counter = s.counter + vs.length ∧
      (runCallbacks result s vs).1.initializtion = false ∧
      (runCallbacks result s vs).1.ignore_inputs = false := by
  induction vs with
  | nil =>
    intro s hinit hign _ _
    exact ⟨rfl, by simp [runCallbacks], by simp [runCallbacks, hinit],
      by simp [runCallbacks, hign]⟩
  | cons m ms ih =>
    intro s hinit hign hcnt hv
    have hc : s.counter ≠ BUFFER_LENGTH := by
      simp only [List.length_cons] at hcnt
      omega
    have hstep := AudioCallback_listen result m s hinit hign
      (hv m (by simp)) hc
    have ihs := ih { s with
        angle := (TemporalMedian m.angle s.angle FILTER_LENGTH).2
        buf := DownSample (TemporalMedian m.angle s.angle FILTER_LENGTH).1 s.buf
        counter := s.counter + 1 }
      hinit hign (by simp only [List.length_cons] at hcnt; simpa using by omega)
      (fun x hx => hv x (by simp [hx]))
    rw [runCallbacks, hstep]
    simp only [List.length_cons]
    refine ⟨by simpa using ihs.1, ?_, ihs.2.2.1, ihs.2.2.2⟩
    rw [ihs.2.1]
    show s.counter + 1 + ms.length = s.counter + (ms.length + 1)
    omega

/-- The callback never leaves `ignore_inputs` set: every branch either keeps
the flag or runs the full `SetPointHead`, which clears it before returning. -/
lemma AudioCallback_ignore_false (result : Bool) (msg : Msg) (s : FollowerState)
    (h : s.ignore_inputs = false) :
    (AudioCallback result msg s).1.ignore_inputs = false := by
  by_cases h1 : s.initializtion = true
  · rw [AudioCallback_initializing result msg s h1]; exact h
  · have h1' : s.initializtion = false := by simpa using h1
    by_cases h2 : msg.is_valid = true
    · by_cases h4 : s.counter = BUFFER_LENGTH
      · rw [AudioCallback_commit result msg s h1' h h2 h4]; rfl
      · rw [AudioCallback_listen result msg s h1' h h2 h4]; exact h
    · have h2' : msg.is_valid = false := by simpa using h2
      rw [AudioCallback_invalid result msg s h1' h2']; exact h

/-- Along any run started with the flag clear, `ignore_inputs` is clear at
every callback boundary. -/
lemma runCallbacks_ignore_false (result : Bool) (msgs : List Msg) :
    ∀ s : FollowerState, s.ignore_inputs = false →
      (runCallbacks result s msgs).1.ignore_inputs = false := by
  induction msgs with
  | nil => intro s h; exact h
  | cons m ms ih =>
    intro s h
    rw [runCallbacks]
    exact ih _ (AudioCallback_ignore_false result m s h)

/-! ### Median filter lemmas -/

/-- Each branch of `TemporalMedian` returns the median of the new history. -/
lemma TemporalMedian_fst (v : ℚ) (h : List ℚ) (n : ℕ) :
    (TemporalMedian v h n).1 = median (TemporalMedian v h n).2 := by
  unfold TemporalMedian
  split_ifs <;> rfl

/-- As long as the history is within capacity, one push produces the history
`(v :: h).take FILTER_LENGTH`: insert at the front, evict beyond capacity. -/
lemma TemporalMedian_snd (v : ℚ) (h : List ℚ)
    (hle : h.length ≤ FILTER_LENGTH) :
    (TemporalMedian v h FILTER_LENGTH).2 = (v :: h).take FILTER_LENGTH := by
  unfold TemporalMedian
  split_ifs with h0 hlt
  · have : h = [] := List.length_eq_zero.mp h0
    subst this
    rfl
  · have hlen : (v :: h).length ≤ FILTER_LENGTH := by
      simp only [List.length_cons]
      omega
    simp [List.take_of_length_le hlen]
  · have hlen : h.length = FILTER_LENGTH := by omega
    rw [List.dropLast_eq_take,
      show FILTER_LENGTH = h.length - 1 + 1 from by omega,
      List.take_succ_cons]

/-- Truncating the second list of an append to the outer take length does not
change the outer take. -/
lemma take_append_take (a b : List ℚ) (n : ℕ) :
    (a ++ b.take n).take n = (a ++ b).take n := by
  rw [List.take_append_eq_append_take, List.take_append_eq_append_take,
    List.take_take]
  congr 2
  exact Nat.min_eq_left (Nat.sub_le n a.length)

/-- The history reached from a within-capacity history is the reverse of the
pushed values, prefixed to the old history, cut at capacity. -/
lemma filterStateFrom_eq (vs : List ℚ) :
    ∀ h : List ℚ, h.length ≤ FILTER_LENGTH →
      filterStateFrom h vs = (vs.reverse ++ h).take FILTER_LENGTH := by
  induction vs with
  | nil =>
    intro h hle
    simpa [filterStateFrom] using (List.take_of_length_le hle).symm
  | cons v vs ih =>
    intro h hle
    rw [filterStateFrom, TemporalMedian_snd v h hle]
    rw [ih ((v :: h).take FILTER_LENGTH)
      (by simp)]
    rw [take_append_take]
    simp [List.reverse_cons, List.append_assoc]

/-- The k-th output of a run of pushes is the median of the (take at
capacity of) the last pushed values together with the starting history. -/
lemma filterOutputsFrom_getD (vs : List ℚ) :
    ∀ (h : List ℚ) (k : ℕ), h.length ≤ FILTER_LENGTH → k < vs.length →
      (filterOutputsFrom h vs).getD k 0 =
        median (((vs.take (k + 1)).reverse ++ h).take FILTER_LENGTH) := by
  induction vs with
  | nil =>
    intro h k _ hk
    exact absurd hk (by simp)
  | cons v vs ih =>
    intro h k hle hk
    cases k with
    | zero =>
      rw [filterOutputsFrom]
      simp only [List.getD_cons_zero]
      rw [TemporalMedian_fst, TemporalMedian_snd v h hle]
      simp
    | succ k =>
      rw [filterOutputsFrom]
      simp only [List.getD_cons_succ]
      rw [ih ((TemporalMedian v h FILTER_LENGTH).2) k
        (by rw [TemporalMedian_snd v h hle]
            simp)
        (by simpa using Nat.lt_of_succ_lt_succ hk)]
      rw [TemporalMedian_snd v h hle, take_append_take]
      congr 2
      simp [List.take_cons, List.reverse_cons, List.append_assoc]

/-- The median only depends on the multiset of values. -/
lemma median_perm {l1 l2 : List ℚ} (h : l1.Perm l2) : median l1 = median l2 := by
  unfold median
  have hs : l1.insertionSort (· ≤ ·) = l2.insertionSort (· ≤ ·) :=
    List.eq_of_perm_of_sorted
      ((List.perm_insertionSort _ l1).trans
        (h.trans (List.perm_insertionSort _ l2).symm))
      (List.sorted_insertionSort _ l1) (List.sorted_insertionSort _ l2)
  rw [hs, h.length_eq]

/-! ### Mode lemmas -/

/-- Invariants of the first-maximum fold over a sorted candidate list: the
result is one of the candidates, it attains the maximal count, and among the
candidates attaining the maximal count it is the smallest. -/
lemma argmaxCount_props (count : ℤ → ℕ) :
    ∀ (l : List ℤ) (b : ℤ), List.Sorted (· ≤ ·) (b :: l) →
      argmaxCount count b l ∈ b :: l ∧
      (∀ x ∈ b :: l, count x ≤ count (argmaxCount count b l)) ∧
      (∀ x ∈ b :: l, count x = count (argmaxCount count b l) →
        argmaxCount count b l ≤ x) := by
  intro l
  induction l with
  | nil =>
    intro b _
    refine ⟨by simp [argmaxCount], ?_, ?_⟩
    · intro x hx
      rw [List.mem_singleton.mp hx]
      simp [argmaxCount]
    · intro x hx _
      rw [List.mem_singleton.mp hx]
      simp [argmaxCount]
  | cons a l ih =>
    intro b hsort
    obtain ⟨hb, hsa⟩ := List.sorted_cons.mp hsort
    obtain ⟨ha, hl⟩ := List.sorted_cons.mp hsa
    have hba : b ≤ a := hb a (by simp)
    rw [argmaxCount]
    by_cases hc : count a > count b
    · simp only [if_pos hc]
      obtain ⟨hmem, hmax, htie⟩ := ih a hsa
      refine ⟨?_, ?_, ?_⟩
      · rcases List.mem_cons.mp hmem with h | h
        · simp [h]
        · simp [h]
      · intro x hx
        rcases List.mem_cons.mp hx with rfl | hx2
        · exact le_of_lt (lt_of_lt_of_le hc (hmax a (by simp)))
        · exact hmax x hx2
      · intro x hx hcx
        rcases List.mem_cons.mp hx with rfl | hx2
        · exact absurd hcx
            (by exact ne_of_lt (lt_of_lt_of_le hc (hmax a (by simp))))
        · exact htie x hx2 hcx
    · simp only [if_neg hc]
      have hcab : count a ≤ count b := Nat.le_of_not_lt hc
      have hsb : List.Sorted (· ≤ ·) (b :: l) :=
        List.sorted_cons.mpr ⟨fun x hx => hb x (by simp [hx]), hl⟩
      obtain ⟨hmem, hmax, htie⟩ := ih b hsb
      refine ⟨?_, ?_, ?_⟩
      · rcases List.mem_cons.mp hmem with h | h
        · simp [h]
        · simp [h]
      · intro x hx
        rcases List.mem_cons.mp hx with rfl | hx2
        · exact hmax x (by simp)
        · rcases List.mem_cons.mp hx2 with rfl | hx3
          · exact le_trans hcab (hmax b (by simp))
          · exact hmax x (by simp [hx3])
      · intro x hx hcx
        rcases List.mem_cons.mp hx with rfl | hx2
        · exact htie x (by simp) hcx
        · rcases List.mem_cons.mp hx2 with rfl | hx3
          · -- x = a ties the maximum: then b also ties it, so result ≤ b ≤ a
            have hbmax : count b = count (argmaxCount count b l) :=
              le_antisymm (hmax b (by simp)) (hcx ▸ hcab)
            exact le_trans (htie b (by simp) hbmax) hba
          · exact htie x (by simp [hx3]) hcx

/-- The sorted deduplicated list inside `GetMode` is nonempty when the buffer
is, and its members are exactly the members of the buffer. -/
lemma dedupSort_ne_nil {buf : List ℤ} (hne : buf ≠ []) :
    buf.dedup.insertionSort (· ≤ ·) ≠ [] := by
  intro h
  have hperm := List.perm_insertionSort (· ≤ ·) buf.dedup
  rw [h] at hperm
  exact hne ((List.dedup_eq_nil buf).mp hperm.symm.eq_nil)

/-- Specification of `GetMode` on a nonempty buffer: the result occurs in the
buffer, has maximal multiplicity, and is the smallest value among those tied
for the maximal multiplicity. -/
lemma GetMode_spec (buf : List ℤ) (hne : buf ≠ []) :
    GetMode buf ∈ buf ∧
    (∀ x ∈ buf, buf.count x ≤ buf.count (GetMode buf)) ∧
    (∀ x ∈ buf, buf.count x = buf.count (GetMode buf) → GetMode buf ≤ x) := by
  have hu : buf.dedup.insertionSort (· ≤ ·) ≠ [] := dedupSort_ne_nil hne
  obtain ⟨y, ys, hys⟩ := List.exists_cons_of_ne_nil hu
  have hmode : GetMode buf = argmaxCount (fun x => buf.count x) y ys := by
    rw [GetMode, hys]
    rfl
  have hsort : List.Sorted (· ≤ ·) (y :: ys) := by
    rw [← hys]
    exact List.sorted_insertionSort _ _
  have hmemiff : ∀ x : ℤ, x ∈ y :: ys ↔ x ∈ buf := by
    intro x
    rw [← hys, (List.perm_insertionSort _ _).mem_iff, List.mem_dedup]
  obtain ⟨hmem, hmax, htie⟩ := argmaxCount_props (fun x => buf.count x) ys y hsort
  rw [hmode]
  refine ⟨(hmemiff _).mp hmem, ?_, ?_⟩
  · intro x hx
    exact hmax x ((hmemiff x).mpr hx)
  · intro x hx hcx
    exact htie x ((hmemiff x).mpr hx) hcx

/-! ### Claim theorems -/

section ClaimSection

-- restore default reducibility of the rational operations so that concrete
-- runs evaluate under `decide`
attribute [local semireducible] Rat.mul Rat.add Rat.inv Rat.sub

/-- C1 counterexample: starting the node fresh and feeding the discarded
initialization sample followed by 30 valid samples produces no commit at all,
refuting that the 30th valid processed sample triggers one (the counter is
compared against `BUFFER_LENGTH` before being incremented, so the commit
fires one sample later). -/
theorem C1_counterexample :
    (runCallbacks true initState
      ({ angle := 90, is_valid := true } ::
        List.replicate 30 { angle := 90, is_valid := true })).2 = [] := by
  decide

/-- C1 (amended): from any state with the initialization and ignore flags
clear and the counter at 0 (a freshly reset controller, or a freshly started
one after the discarded initialization sample), any run of up to 30 valid
samples triggers no commit, and after exactly 30 valid samples the next
valid sample (the 31st) triggers one. -/
theorem C1_commit_on_31st (result : Bool) (s : FollowerState)
    (hinit : s.initializtion = false) (hign : s.ignore_inputs = false)
    (hcnt : s.counter = 0) :
    (∀ vs : List Msg, vs.length ≤ BUFFER_LENGTH →
      (∀ x ∈ vs, x.is_valid = true) → (runCallbacks result s vs).2 = []) ∧
    (∀ (vs : List Msg) (m : Msg), vs.length = BUFFER_LENGTH →
      (∀ x ∈ vs, x.is_valid = true) → m.is_valid = true →
      ((AudioCallback result m (runCallbacks result s vs).1).2).isSome = true) := by
  constructor
  · intro vs hlen hval
    exact (runCallbacks_listening result vs s hinit hign (by omega) hval).1
  · intro vs m hlen hval hm
    obtain ⟨-, h2, h3, h4⟩ :=
      runCallbacks_listening result vs s hinit hign (by omega) hval
    have hc : (runCallbacks result s vs).1.counter = BUFFER_LENGTH := by
      omega
    rw [AudioCallback_commit result m _ h3 h4 hm hc]
    rfl

/-- C1 witness: the amended statement applied to the reset state with 30
valid samples and one more valid sample. -/
theorem C1_witness :
    (runCallbacks true resetState
      (List.replicate 30 { angle := 90, is_valid := true })).2 = [] ∧
    ((AudioCallback true { angle := 90, is_valid := true }
      (runCallbacks true resetState
        (List.replicate 30 { angle := 90, is_valid := true })).1).2).isSome
      = true := by
  have h := C1_commit_on_31st true resetState rfl rfl rfl
  have hval : ∀ x ∈ List.replicate 30 ({ angle := 90, is_valid := true } : Msg),
      x.is_valid = true := by
    intro x hx
    rw [List.eq_of_mem_replicate hx]
  exact ⟨h.1 _ (by simp [BUFFER_LENGTH]) hval, h.2 _ _ (by simp [BUFFER_LENGTH]) hval rfl⟩

/-- C2: the gating claim fails on the code. After the run that fires the
commit (one initialization sample plus 31 valid samples at 90 degrees, one
commit emitted), `ignore_inputs` is already false again, so a valid sample
that was delivered while the commit was blocking is processed as soon as the
lock is released: it is pushed into the median filter history rather than
discarded (the history grows from empty to `[45]`). The flag is set and
cleared entirely inside the critical section, so no callback can ever
observe it true. -/
theorem C2_sample_after_commit_processed :
    (runCallbacks true initState
      ({ angle := 90, is_valid := true } ::
        List.replicate 31 { angle := 90, is_valid := true })).2 = [90] ∧
    (runCallbacks true initState
      ({ angle := 90, is_valid := true } ::
        List.replicate 31 { angle := 90, is_valid := true })).1.ignore_inputs
      = false ∧
    (runCallbacks true initState
      ({ angle := 90, is_valid := true } ::
        List.replicate 31 { angle := 90, is_valid := true })).1.angle = [] ∧
    (AudioCallback true { angle := 45, is_valid := true }
      (runCallbacks true initState
        ({ angle := 90, is_valid := true } ::
          List.replicate 31 { angle := 90, is_valid := true })).1).1.angle
      = [45] := by
  refine ⟨by decide, by decide, by decide, by decide⟩

/-- C3 counterexample: at startup the history is `np.zeros(1) = [0]`, not
empty, so the first processed sample (angle 90 after the discarded
initialization sample) returns the filtered value 45, not the raw 90, and
the stored history is `[90, 0]`, not the single pushed element. -/
theorem C3_counterexample :
    (AudioCallback true { angle := 0, is_valid := true } initState).1.angle
      = [0] ∧
    (TemporalMedian 90
      (AudioCallback true { angle := 0, is_valid := true } initState).1.angle
      FILTER_LENGTH).1 = 45 ∧
    ((45 : ℚ) = 90 → False) ∧
    (TemporalMedian 90
      (AudioCallback true { angle := 0, is_valid := true } initState).1.angle
      FILTER_LENGTH).2 ≠ [90] := by
  refine ⟨by decide, by decide, by decide, by decide⟩

/-- C3 (amended): after every commanded move the history really is empty and
the first push then returns the raw input and stores it as the single
element; at startup, however, the history holds a single 0.0, so the first
push returns the mean of the input and 0. -/
theorem C3_first_push :
    (∀ (result : Bool) (s : FollowerState), (SetPointHead result s).angle = []) ∧
    (∀ v : ℚ, TemporalMedian v [] FILTER_LENGTH = (v, [v])) ∧
    initState.angle = [0] ∧
    (∀ v : ℚ, (TemporalMedian v [0] FILTER_LENGTH).1 = v / 2) := by
  refine ⟨fun result s => rfl, fun v => ?_, rfl, fun v => ?_⟩
  · have h1 : TemporalMedian v [] FILTER_LENGTH = (median [v], [v]) := rfl
    rw [h1]
    simp [median]
  · have h1 : (TemporalMedian v [0] FILTER_LENGTH).1 = median [v, 0] := rfl
    rw [h1, median]
    by_cases hv : v ≤ (0 : ℚ)
    · simp [List.insertionSort, List.orderedInsert, hv]
    · simp [List.insertionSort, List.orderedInsert, hv]

/-- C4 counterexample: the vote buffer stores the raw filtered values, not
rounded integers. After the discarded initialization sample, processing a
valid sample with angle 5 pushes the filtered value 5/2 (the median of the
history `[5, 0]`) into the buffer: the newest element is 5/2, which is not an
integer at all. -/
theorem C4_counterexample :
    (AudioCallback true { angle := 5, is_valid := true }
      (AudioCallback true { angle := 0, is_valid := true } initState).1).1.buf.headD 0
      = 5 / 2 ∧
    ∀ z : ℤ, ((5 : ℚ) / 2) ≠ (z : ℚ) := by
  constructor
  · decide
  · intro z h
    have h2 : ((5 : ℚ) / 2).den = 2 := by decide
    rw [h, Rat.den_intCast] at h2
    exact absurd h2 (by norm_num)

/-- C4 (amended): after each processed valid non-commit sample the newest
vote buffer element is exactly the filtered (median) value, unrounded; the
conversion to integers happens only in the commit branch, where the whole
buffer is truncated toward zero (`astype(int)`) before the mode is taken. -/
theorem C4_vote_buffer_values (result : Bool) (msg : Msg) (s : FollowerState)
    (hinit : s.initializtion = false) (hign : s.ignore_inputs = false)
    (hv : msg.is_valid = true) :
    (s.counter ≠ BUFFER_LENGTH →
      (AudioCallback result msg s).1.buf =
        (TemporalMedian msg.angle s.angle FILTER_LENGTH).1 :: s.buf.dropLast) ∧
    (∀ d : ℤ, (AudioCallback result msg s).2 = some d →
      d = GetMode
        ((DownSample (TemporalMedian msg.angle s.angle FILTER_LENGTH).1
            s.buf).map truncQ)) := by
  constructor
  · intro hc
    rw [AudioCallback_listen result msg s hinit hign hv hc]
    rfl
  · intro d h
    exact (AudioCallback_some result msg s d h).2.2.2.2.2

/-- C4 witness: the amended statement applied right after initialization. -/
theorem C4_witness :
    (AudioCallback true { angle := 5, is_valid := true }
      (AudioCallback true { angle := 0, is_valid := true } initState).1).1.buf =
      (TemporalMedian 5
        (AudioCallback true { angle := 0, is_valid := true } initState).1.angle
        FILTER_LENGTH).1 ::
      (AudioCallback true { angle := 0, is_valid := true } initState).1.buf.dropLast :=
  (C4_vote_buffer_values true { angle := 5, is_valid := true }
    (AudioCallback true { angle := 0, is_valid := true } initState).1
    (by decide) (by decide) rfl).1 (by decide)

/-- C5: starting from an empty history, the filter state after k+1 pushes is
the reverse of the pushed values cut at capacity (so once more than
`FILTER_LENGTH` values are pushed, the window is exactly the last
`FILTER_LENGTH` of them, oldest evicted first); the k-th returned value is
the median of that window; and for the first `FILTER_LENGTH` pushes it is
the median of exactly the values pushed so far. -/
theorem C5_median_window (vs : List ℚ) (k : ℕ) (hk : k < vs.length) :
    filterState (vs.take (k + 1)) =
      ((vs.take (k + 1)).reverse).take FILTER_LENGTH ∧
    (filterOutputs vs).getD k 0 =
      median (((vs.take (k + 1)).reverse).take FILTER_LENGTH) ∧
    (k + 1 ≤ FILTER_LENGTH →
      (filterOutputs vs).getD k 0 = median (vs.take (k + 1))) := by
  simp only [filterState, filterOutputs]
  have h1 := filterStateFrom_eq (vs.take (k + 1)) [] (by simp)
  have h2 := filterOutputsFrom_getD vs [] k (by simp) hk
  rw [List.append_nil] at h1 h2
  refine ⟨h1, h2, ?_⟩
  intro hle
  rw [h2]
  have hlen : ((vs.take (k + 1)).reverse).length ≤ FILTER_LENGTH := by
    rw [List.length_reverse, List.length_take]
    omega
  rw [List.take_of_length_le hlen]
  exact median_perm (List.reverse_perm _)

/-- C5 witness: the window statement applied to a concrete run of three
pushes, together with the evaluated median. -/
theorem C5_witness :
    (filterState ([1, 2, 30].take (2 + 1)) =
      (([1, 2, 30].take (2 + 1)).reverse).take FILTER_LENGTH ∧
    (filterOutputs [1, 2, 30]).getD 2 0 =
      median ((([1, 2, 30].take (2 + 1)).reverse).take FILTER_LENGTH) ∧
    (2 + 1 ≤ FILTER_LENGTH →
      (filterOutputs [1, 2, 30]).getD 2 0 = median ([1, 2, 30].take (2 + 1)))) ∧
    (filterOutputs [1, 2, 30]).getD 2 0 = 2 :=
  ⟨C5_median_window [1, 2, 30] 2 (by decide), by decide⟩

/-- C6: on every nonempty buffer content `GetMode` (a pure function, hence
deterministic in its argument) returns a most frequent value, and among the
values tied for the highest multiplicity it returns the smallest; on the
buffer `[10, 10, 20, 20, 5]` it returns 10. -/
theorem C6_mode_spec :
    (∀ buf : List ℤ, buf ≠ [] →
      GetMode buf ∈ buf ∧
      (∀ x ∈ buf, buf.count x ≤ buf.count (GetMode buf)) ∧
      (∀ x ∈ buf, buf.count x = buf.count (GetMode buf) → GetMode buf ≤ x)) ∧
    GetMode [10, 10, 20, 20, 5] = 10 :=
  ⟨GetMode_spec, by decide⟩

/-- C6 witness: the specification applied to the example buffer. -/
theorem C6_witness :
    GetMode [10, 10, 20, 20, 5] ∈ [10, 10, 20, 20, 5] :=
  (C6_mode_spec.1 [10, 10, 20, 20, 5] (by decide)).1

/-- C7: whenever a callback fires a commit — whatever the actuator result —
the post-state has an empty filter history, the vote buffer reset to its
all-zero initial content, and the counter at 0; consequently the next 29
valid samples (under any later actuator result) never fire a second
commit. -/
theorem C7_reset_after_commit (result : Bool) (msg : Msg) (s : FollowerState)
    (d : ℤ) (h : (AudioCallback result msg s).2 = some d) :
    (AudioCallback result msg s).1.angle = [] ∧
    (AudioCallback result msg s).1.buf = List.replicate BUFFER_LENGTH 0 ∧
    (AudioCallback result msg s).1.counter = 0 ∧
    ∀ (result2 : Bool) (vs : List Msg), vs.length ≤ 29 →
      (∀ m ∈ vs, m.is_valid = true) →
      (runCallbacks result2 (AudioCallback result msg s).1 vs).2 = [] := by
  obtain ⟨hst, -, -, -, -, -⟩ := AudioCallback_some result msg s d h
  rw [hst]
  refine ⟨rfl, rfl, rfl, ?_⟩
  intro result2 vs hlen hval
  refine (runCallbacks_listening result2 vs resetState rfl rfl ?_ hval).1
  show 0 + vs.length ≤ BUFFER_LENGTH
  have : BUFFER_LENGTH = 30 := rfl
  omega

/-- C7 witness: a concrete commit (counter at capacity, valid sample) leaves
the reset state behind, and a following run of 29 valid samples commits
nothing. -/
theorem C7_witness :
    (AudioCallback true { angle := 90, is_valid := true }
      { resetState with counter := BUFFER_LENGTH }).1.angle = [] ∧
    (runCallbacks false
      (AudioCallback true { angle := 90, is_valid := true }
        { resetState with counter := BUFFER_LENGTH }).1
      (List.replicate 29 { angle := 0, is_valid := true })).2 = [] := by
  have h := C7_reset_after_commit true { angle := 90, is_valid := true }
    { resetState with counter := BUFFER_LENGTH } 0 (by decide)
  exact ⟨h.1, h.2.2.2 false _ (by simp)
    (fun m hm => by rw [List.eq_of_mem_replicate hm])⟩

/-- C8: every invalid sample received after initialization is discarded
silently: the callback is a total function that returns the state unchanged
and invokes no actuator. -/
theorem C8_invalid_discarded (result : Bool) (msg : Msg) (s : FollowerState)
    (hinit : s.initializtion = false) (hv : msg.is_valid = false) :
    AudioCallback result msg s = (s, none) :=
  AudioCallback_invalid result msg s hinit hv

/-- C8 witness: an invalid sample against the reset state. -/
theorem C8_witness :
    AudioCallback true { angle := 33, is_valid := false } resetState =
      (resetState, none) :=
  C8_invalid_discarded true { angle := 33, is_valid := false } resetState rfl rfl

/-- C9: for every commit with voted direction d the target handed to the
actuator is `(3 cos(d.pi/180), 3 sin(d.pi/180), 0)`, and the underlying
polar-to-Cartesian conversion is the pure function
`(rho, phi) = (rho cos phi, rho sin phi)`. -/
theorem C9_direction_mapping (result : Bool) (msg : Msg) (s : FollowerState)
    (d : ℤ) (_hcommit : (AudioCallback result msg s).2 = some d) :
    commitTarget d =
      (3 * Real.cos ((d : ℝ) * Real.pi / 180),
        3 * Real.sin ((d : ℝ) * Real.pi / 180), 0) ∧
    ∀ rho phi : ℝ, PolToCart rho phi = (rho * Real.cos phi, rho * Real.sin phi) := by
  refine ⟨?_, fun rho phi => rfl⟩
  have h : ((d : ℝ) / 180) * Real.pi = (d : ℝ) * Real.pi / 180 := by ring
  simp only [commitTarget, PolToCart, h]

/-- C9 witness: a concrete commit votes direction 0 and the target evaluates
to `(3, 0, 0)`. -/
theorem C9_witness :
    (AudioCallback true { angle := 90, is_valid := true }
      { resetState with counter := BUFFER_LENGTH }).2 = some 0 ∧
    commitTarget 0 = (3, 0, 0) := by
  have h0 : (AudioCallback true { angle := 90, is_valid := true }
      { resetState with counter := BUFFER_LENGTH }).2 = some 0 := by decide
  refine ⟨h0, ?_⟩
  rw [(C9_direction_mapping true _ _ 0 h0).1]
  norm_num

/-- C10: the `ignore_inputs` flag is false at startup, is set by the first
statement of `SetPointHead` and cleared again before `SetPointHead` returns,
so the callback (which runs `SetPointHead` inside its own critical section)
maps a state with the flag clear to a state with the flag clear, and along
any serialized run from startup the flag is false at every callback
boundary — no callback ever begins with `ignore_inputs` true. -/
theorem C10_ignore_flag_boundaries :
    initState.ignore_inputs = false ∧
    (∀ s : FollowerState, (setIgnore s).ignore_inputs = true) ∧
    (∀ (result : Bool) (s : FollowerState),
      (SetPointHead result s).ignore_inputs = false) ∧
    (∀ (result : Bool) (msg : Msg) (s : FollowerState),
      s.ignore_inputs = false →
      (AudioCallback result msg s).1.ignore_inputs = false) ∧
    (∀ (result : Bool) (msgs : List Msg),
      (runCallbacks result initState msgs).1.ignore_inputs = false) := by
  refine ⟨rfl, fun s => rfl, fun result s => rfl,
    AudioCallback_ignore_false, ?_⟩
  intro result msgs
  exact runCallbacks_ignore_false result msgs initState rfl

/-- C10 witness: the flag-preservation statement applied to the reset state
and a concrete sample. -/
theorem C10_witness :
    (AudioCallback true { angle := 7, is_valid := true }
      resetState).1.ignore_inputs = false :=
  C10_ignore_flag_boundaries.2.2.2.1 true { angle := 7, is_valid := true }
    resetState rfl

end ClaimSection
